import Mathlib

/-!
Verification of the MHSCU-Tools Discord bot (`src/index.js`, second program in
the file, lines 260-1261).  The bot keeps a per-user message tally in a plain
JS object (`leaderboard`), persists it to a JSON file with coalesced writes
(`saveData`), runs a weekly leaderboard cycle (`sendLeaderboard`) that strips
and re-grants a winner role and resets the tally, tracks per-(user, command)
cooldowns (`checkCooldown`), keeps a mute ledger (`mutedUserRoles`) mapping a
muted user to the roles they held before the mute, and validates the `clear`
moderation amount.

JS objects (for string keys that are not array indices, such as Discord
snowflake ids) and JS `Map`s both iterate in insertion order, and assigning to
an existing key keeps its position while assigning a fresh key appends it.  We
therefore embed both as association lists `List (String × β)` ordered by
insertion, with `lookupT` / `setEntry` / `eraseKey` mirroring property read,
property write / `Map.set`, and `Map.delete`.
-/

/-- First value stored under key `u`; models `obj[u]` / `Map.get`. -/
def lookupT {β : Type} : List (String × β) → String → Option β
  | [], _ => none
  | (k, v) :: rest, u => if k = u then some v else lookupT rest u

/-- Overwrite the first entry for `u` in place, or append `(u, b)`;
models `obj[u] = b` / `Map.set(u, b)` (insertion order preserved). -/
def setEntry {β : Type} : List (String × β) → String → β → List (String × β)
  | [], u, b => [(u, b)]
  | (k, v) :: rest, u, b =>
      if k = u then (k, b) :: rest else (k, v) :: setEntry rest u b

/-- Remove the first entry for `u`; models `Map.delete(u)`. -/
def eraseKey {β : Type} : List (String × β) → String → List (String × β)
  | [], _ => []
  | (k, v) :: rest, u => if k = u then rest else (k, v) :: eraseKey rest u

/-- Models `Map.has(u)`. -/
def containsKey {β : Type} (t : List (String × β)) (u : String) : Bool :=
  (lookupT t u).isSome

@[simp] theorem lookupT_nil {β : Type} (u : String) :
    lookupT ([] : List (String × β)) u = none := rfl

@[simp] theorem lookupT_cons {β : Type} (k : String) (v : β)
    (rest : List (String × β)) (u : String) :
    lookupT ((k, v) :: rest) u = if k = u then some v else lookupT rest u := rfl

theorem lookupT_setEntry_self {β : Type} (t : List (String × β)) (u : String)
    (b : β) : lookupT (setEntry t u b) u = some b := by
  induction t with
  | nil => simp [setEntry]
  | cons hd rest ih =>
    obtain ⟨k, v⟩ := hd
    by_cases hk : k = u
    · simp [setEntry, hk]
    · simp [setEntry, hk, ih]

theorem lookupT_setEntry_ne {β : Type} (t : List (String × β)) (u w : String)
    (b : β) (hw : w ≠ u) : lookupT (setEntry t u b) w = lookupT t w := by
  induction t with
  | nil => simp [setEntry, Ne.symm hw]
  | cons hd rest ih =>
    obtain ⟨k, v⟩ := hd
    by_cases hk : k = u
    · subst hk
      simp [setEntry, Ne.symm hw]
    · by_cases hku : k = w <;> simp [setEntry, hk, hku, hw, ih]

theorem eraseKey_setEntry_of_not_contains {β : Type} (t : List (String × β))
    (u : String) (b : β) (h : lookupT t u = none) :
    eraseKey (setEntry t u b) u = t := by
  induction t with
  | nil => simp [setEntry, eraseKey]
  | cons hd rest ih =>
    obtain ⟨k, v⟩ := hd
    by_cases hk : k = u
    · simp [hk] at h
    · simp [hk] at h
      simp [setEntry, eraseKey, hk, ih h]

theorem lookupT_eraseKey_ne {β : Type} (t : List (String × β)) (u w : String)
    (hw : w ≠ u) : lookupT (eraseKey t u) w = lookupT t w := by
  induction t with
  | nil => simp [eraseKey]
  | cons hd rest ih =>
    obtain ⟨k, v⟩ := hd
    by_cases hk : k = u
    · subst hk
      simp [eraseKey, Ne.symm hw]
    · by_cases hkw : k = w <;> simp [eraseKey, hk, hkw, hw, ih]

/-!
## Counter Store (`leaderboard`)

`src/index.js` lines 817-822:

```js
client.on("messageCreate", (msg) => {
  if (msg.author.bot) return;
  if (!leaderboard[msg.author.id]) leaderboard[msg.author.id] = 0;
  leaderboard[msg.author.id]++;
  saveData();
});
```

The falsy test resets an absent (or zero) entry to `0` before the increment,
so the new value is always `old-or-0 + 1`; over `Nat` this is exactly
`(lookupT t u).getD 0 + 1`.
-/

/-- One message-ingest step for (non-bot) user `u`: the tally update of the
`messageCreate` counting handler. -/
def recordActivity (u : String) (t : List (String × Nat)) :
    List (String × Nat) :=
  setEntry t u ((lookupT t u).getD 0 + 1)

theorem lookupT_recordActivity (t : List (String × Nat)) (v u : String) :
    lookupT (recordActivity v t) u =
      if v = u then some ((lookupT t u).getD 0 + 1) else lookupT t u := by
  by_cases hv : v = u
  · subst hv
    simp [recordActivity, lookupT_setEntry_self]
  · simp [recordActivity, hv, lookupT_setEntry_ne t v u _ (fun h => hv h.symm)]

/-- **C1** For every starting tally and every sequence of `recordActivity`
calls, each user's final count is their previous count plus the number of
calls naming them, a user absent before and never recorded stays absent, and
no key other than the recorded users' keys changes. -/
theorem recordActivity_spec (s : List (String × Nat)) (calls : List String)
    (u : String) :
    (lookupT (calls.foldl (fun t v => recordActivity v t) s) u).getD 0
        = (lookupT s u).getD 0 + calls.count u
      ∧ ((lookupT (calls.foldl (fun t v => recordActivity v t) s) u).isSome
        ↔ ((lookupT s u).isSome ∨ u ∈ calls)) := by
  induction calls generalizing s with
  | nil => simp
  | cons v rest ih =>
    have h := ih (recordActivity v s)
    have hl := lookupT_recordActivity s v u
    constructor
    · rw [List.foldl_cons, h.1, hl]
      by_cases hv : v = u
      · subst hv
        simp [List.count_cons]
        omega
      · have : ¬ (u = v) := fun h' => hv h'.symm
        simp [hv, List.count_cons, this]
    · rw [List.foldl_cons, h.2, hl]
      by_cases hv : v = u
      · subst hv
        simp
      · have : ¬ (u = v) := fun h' => hv h'.symm
        simp [hv, this]

/-!
## Persistence (`saveData`), `src/index.js` lines 316-324

```js
function saveData(force = false) {
  if (!force && Date.now() - lastSave < SAVE_INTERVAL) return;
  try {
    fs.writeFileSync(DATA_FILE, JSON.stringify(leaderboard, null, 2));
    lastSave = Date.now();
  } catch (err) { console.error(...); }
}
```

`SAVE_INTERVAL = 30000` ms.  We model the clock and the number of actual file
writes; the write is taken to succeed (the claims quantify over successful
writes).  Times are `Nat` milliseconds; JS computes `now - lastSave` with a
true subtraction, but a clock that never goes backwards makes the truncated
`Nat` subtraction agree (and when `now < lastSave` both sides skip the write).
-/

/-- Clock and write counter of the persistence layer. -/
structure SaveState where
  lastSave : Nat
  writes : Nat
  deriving DecidableEq, Repr

/-- `saveData(force)` called at time `now`. -/
def saveData (force : Bool) (now : Nat) (s : SaveState) : SaveState :=
  if !force && now - s.lastSave < 30000 then s
  else ⟨now, s.writes + 1⟩

/-- **C2** Two `saveData(false)` calls whose times both lie within 30 seconds
of the last successful write perform at most one actual write, while
`saveData(true)` always writes and resets the interval clock. -/
theorem saveData_spec (s : SaveState) (t1 t2 : Nat)
    (h1 : t1 - s.lastSave < 30000) (h2 : t2 - s.lastSave < 30000) :
    (saveData false t2 (saveData false t1 s)).writes ≤ s.writes + 1
      ∧ ∀ t3 s3, (saveData true t3 s3).writes = s3.writes + 1
        ∧ (saveData true t3 s3).lastSave = t3 := by
  constructor
  · have e1 : saveData false t1 s = s := by simp [saveData, h1]
    rw [e1]
    have e2 : saveData false t2 s = s := by simp [saveData, h2]
    rw [e2]
    omega
  · intro t3 s3
    constructor <;> simp [saveData]

/-- Witness for `saveData_spec` at a concrete state and times. -/
theorem saveData_spec_witness :
    (5 - (SaveState.mk 0 0).lastSave < 30000
        ∧ 10 - (SaveState.mk 0 0).lastSave < 30000)
      ∧ ((saveData false 10 (saveData false 5 ⟨0, 0⟩)).writes ≤ 0 + 1
        ∧ ∀ t3 s3, (saveData true t3 s3).writes = s3.writes + 1
          ∧ (saveData true t3 s3).lastSave = t3) :=
  ⟨⟨by decide, by decide⟩, saveData_spec ⟨0, 0⟩ 5 10 (by decide) (by decide)⟩

/-!
## Ranked view, `src/index.js` lines 731-733

```js
const sorted = Object.entries(leaderboard)
  .sort((a, b) => b[1] - a[1])
  .slice(0, 10);
```

`Object.entries` yields the tally in insertion order (snowflake ids are not
array indices), and `Array.prototype.sort` is stable (ECMAScript 2019+) and
must be consistent with the comparator, so the result is the unique stable
descending-by-count ordering.  We embed it as a stable insertion sort:
`sortDesc` processes entries right to left; `insertDesc x l` places `x` after
every element whose count strictly exceeds `x`'s, hence before any
equal-count element that came later in insertion order.
-/

/-- Insert `x` after the elements with strictly greater count. -/
def insertDesc (x : String × Nat) : List (String × Nat) → List (String × Nat)
  | [] => [x]
  | y :: ys => if x.2 < y.2 then y :: insertDesc x ys else x :: y :: ys

/-- Stable sort by count descending: the semantics of
`.sort((a, b) => b[1] - a[1])` on the insertion-ordered entry list. -/
def sortDesc : List (String × Nat) → List (String × Nat)
  | [] => []
  | x :: xs => insertDesc x (sortDesc xs)

/-- The `sorted` list of `sendLeaderboard`: sort, then `.slice(0, 10)`. -/
def rankedEntries (t : List (String × Nat)) : List (String × Nat) :=
  (sortDesc t).take 10

theorem mem_insertDesc (x z : String × Nat) (l : List (String × Nat)) :
    z ∈ insertDesc x l ↔ z = x ∨ z ∈ l := by
  induction l with
  | nil => simp [insertDesc]
  | cons y ys ih =>
    by_cases h : x.2 < y.2
    · rw [insertDesc, if_pos h]
      simp only [List.mem_cons, ih]
      tauto
    · rw [insertDesc, if_neg h]
      exact List.mem_cons

theorem pairwise_insertDesc (x : String × Nat) (l : List (String × Nat))
    (h : l.Pairwise (fun a b => b.2 ≤ a.2)) :
    (insertDesc x l).Pairwise (fun a b => b.2 ≤ a.2) := by
  induction l with
  | nil => simp [insertDesc]
  | cons y ys ih =>
    rw [List.pairwise_cons] at h
    by_cases hx : x.2 < y.2
    · rw [insertDesc, if_pos hx, List.pairwise_cons]
      refine ⟨fun z hz => ?_, ih h.2⟩
      rcases (mem_insertDesc x z ys).mp hz with hz | hz
      · subst hz
        omega
      · exact h.1 z hz
    · rw [insertDesc, if_neg hx, List.pairwise_cons]
      refine ⟨fun z hz => ?_, List.pairwise_cons.mpr h⟩
      rcases List.mem_cons.mp hz with hz | hz
      · subst hz
        omega
      · have := h.1 z hz
        omega

theorem pairwise_sortDesc (t : List (String × Nat)) :
    (sortDesc t).Pairwise (fun a b => b.2 ≤ a.2) := by
  induction t with
  | nil => simp [sortDesc]
  | cons x xs ih => exact pairwise_insertDesc x (sortDesc xs) ih

theorem perm_insertDesc (x : String × Nat) (l : List (String × Nat)) :
    List.Perm (insertDesc x l) (x :: l) := by
  induction l with
  | nil => simp [insertDesc]
  | cons y ys ih =>
    by_cases h : x.2 < y.2
    · rw [insertDesc, if_pos h]
      exact (ih.cons y).trans (List.Perm.swap x y ys)
    · rw [insertDesc, if_neg h]

theorem perm_sortDesc (t : List (String × Nat)) :
    List.Perm (sortDesc t) t := by
  induction t with
  | nil => simp [sortDesc]
  | cons x xs ih =>
    exact List.Perm.trans (perm_insertDesc x (sortDesc xs)) (List.Perm.cons x ih)

theorem filter_insertDesc (c : Nat) (x : String × Nat)
    (l : List (String × Nat)) :
    (insertDesc x l).filter (fun q => q.2 = c)
      = if x.2 = c then x :: l.filter (fun q => q.2 = c)
        else l.filter (fun q => q.2 = c) := by
  induction l with
  | nil =>
    by_cases hx : x.2 = c <;> simp [insertDesc, hx, List.filter]
  | cons y ys ih =>
    by_cases h : x.2 < y.2
    · rw [insertDesc, if_pos h]
      by_cases hy : y.2 = c
      · have hx : ¬ x.2 = c := by omega
        simp [List.filter_cons, hy, hx, ih]
      · by_cases hx : x.2 = c <;> simp [List.filter_cons, hy, hx, ih]
    · rw [insertDesc, if_neg h]
      by_cases hx : x.2 = c <;> simp [List.filter_cons, hx]

/-- Stability characterisation: for every count value, the sorted list keeps
the tally's equal-count entries in their original (insertion) order. -/
theorem filter_sortDesc (c : Nat) (t : List (String × Nat)) :
    (sortDesc t).filter (fun q => q.2 = c)
      = t.filter (fun q => q.2 = c) := by
  induction t with
  | nil => simp [sortDesc]
  | cons x xs ih =>
    rw [sortDesc, filter_insertDesc, ih]
    by_cases hx : x.2 = c <;> simp [List.filter_cons, hx]

/-- **C5** The ranked view is a deterministic function of the tally and its
insertion order: it is sorted by count descending, ties keep insertion order
(equal-count entries appear exactly as they do in the tally), it has at most
10 entries, it is drawn from the sorted permutation of the tally, and on
counts `{A:5, B:9, C:9, D:1}` (B inserted before C) it is `B, C, A, D`. -/
theorem rankedEntries_spec :
    (∀ t, (rankedEntries t).Pairwise (fun a b => b.2 ≤ a.2))
      ∧ (∀ c t, (sortDesc t).filter (fun q => q.2 = c)
          = t.filter (fun q => q.2 = c))
      ∧ (∀ t, List.Perm (sortDesc t) t)
      ∧ (∀ t, (rankedEntries t).length ≤ 10)
      ∧ (∀ t, rankedEntries t = (sortDesc t).take 10)
      ∧ rankedEntries [("A", 5), ("B", 9), ("C", 9), ("D", 1)]
          = [("B", 9), ("C", 9), ("A", 5), ("D", 1)] := by
  refine ⟨fun t => ?_, filter_sortDesc, perm_sortDesc, fun t => ?_,
    fun t => rfl, by decide⟩
  · exact (pairwise_sortDesc t).sublist (List.take_sublist 10 _)
  · exact List.length_take_le 10 (sortDesc t)

/-!
## Leaderboard cycle (`sendLeaderboard`), `src/index.js` lines 689-785

The whole body of `sendLeaderboard` sits in one `try/catch`, so a throw from
the channel fetch or from `channel.send` is swallowed inside the function.
`removeWinnerRole` and `giveWinnerRole` each catch their own errors, so their
failures never abort the cycle.  Control flow of the body:

1. fetch the leaderboard channel; `null`/throw → return/caught (nothing done);
2. `removeWinnerRole(guild)`: strip the winner role from every holder;
3. `sorted = Object.entries(leaderboard).sort((a,b) => b[1]-a[1]).slice(0,10)`;
4. if `sorted` is empty: send "No messages recorded this week!" and return —
   no reset, no save, no grant;
5. send the mention line + embed (ranked entries and the total) as one message;
   a throw here is caught: no grant, no reset, no save;
6. `giveWinnerRole(guild, sorted[0][0])` (failure caught internally);
7. `leaderboard = {}; saveData(true)`.

We model the platform world as `CycleState` and the success/failure of the
three externally fallible steps as `CycleEnv` booleans.  Per-member strip
failures inside `removeWinnerRole` are not separated out: the strip is
modelled as emptying the holder set (the claims either assume platform
success or do not constrain partial strip failures).
-/

/-- Outbound announcements, abstracted to their structure. -/
inductive Msg : Type
  | noActivity : Msg
  | announcement : List (String × Nat) → Nat → Msg
  deriving DecidableEq, Repr

/-- Success/failure of the fallible platform calls in one cycle run. -/
structure CycleEnv where
  channelOk : Bool
  sendOk : Bool
  grantOk : Bool
  deriving DecidableEq, Repr

/-- Tally, winner-role holder set, sent messages, and persistence state. -/
structure CycleState where
  tally : List (String × Nat)
  holders : List String
  messages : List Msg
  save : SaveState
  deriving DecidableEq, Repr

/-- `Object.values(leaderboard).reduce((a, b) => a + b, 0)` (line 757). -/
def totalMessages (t : List (String × Nat)) : Nat :=
  (t.map Prod.snd).sum

/-- One run of `sendLeaderboard` at time `now`. -/
def sendLeaderboard (env : CycleEnv) (now : Nat) (w : CycleState) :
    CycleState :=
  if env.channelOk then
    let w1 : CycleState := { w with holders := [] }
    match rankedEntries w.tally with
    | [] =>
        if env.sendOk then
          { w1 with messages := w1.messages ++ [Msg.noActivity] }
        else w1
    | top :: rest =>
        if env.sendOk then
          let w2 : CycleState :=
            { w1 with messages :=
                w1.messages ++ [Msg.announcement (top :: rest)
                  (totalMessages w.tally)] }
          let w3 : CycleState :=
            if env.grantOk then { w2 with holders := [top.1] } else w2
          { w3 with tally := [], save := saveData true now w3.save }
        else w1
  else w

theorem insertDesc_ne_nil (x : String × Nat) (l : List (String × Nat)) :
    insertDesc x l ≠ [] := by
  cases l with
  | nil => simp [insertDesc]
  | cons y ys =>
    rw [insertDesc]
    by_cases h : x.2 < y.2 <;> simp [h]

theorem rankedEntries_cons_exists (a : String) (n : Nat)
    (rest : List (String × Nat)) :
    ∃ top tl, rankedEntries ((a, n) :: rest) = top :: tl := by
  rw [rankedEntries, sortDesc]
  rcases hs : insertDesc (a, n) (sortDesc rest) with _ | ⟨y, ys⟩
  · exact absurd hs (insertDesc_ne_nil _ _)
  · exact ⟨y, ys.take 9, by simp⟩

/-- **C3** A cycle on a non-empty tally with all platform calls succeeding
empties the tally, force-flushes it, grants the winner role to the rank-1
ranked entry, and every pre-cycle holder of the role no longer holds it
(unless they are the new rank-1). -/
theorem sendLeaderboard_nonempty (a : String) (n : Nat)
    (rest : List (String × Nat)) (holders : List String)
    (msgs : List Msg) (sv : SaveState) (now : Nat) :
    ∃ top tl, rankedEntries ((a, n) :: rest) = top :: tl
      ∧ (sendLeaderboard ⟨true, true, true⟩ now
          ⟨(a, n) :: rest, holders, msgs, sv⟩).tally = []
      ∧ (sendLeaderboard ⟨true, true, true⟩ now
          ⟨(a, n) :: rest, holders, msgs, sv⟩).save.writes = sv.writes + 1
      ∧ (sendLeaderboard ⟨true, true, true⟩ now
          ⟨(a, n) :: rest, holders, msgs, sv⟩).holders = [top.1]
      ∧ ∀ m ∈ holders,
          m ∈ (sendLeaderboard ⟨true, true, true⟩ now
            ⟨(a, n) :: rest, holders, msgs, sv⟩).holders → m = top.1 := by
  obtain ⟨top, tl, hr⟩ := rankedEntries_cons_exists a n rest
  refine ⟨top, tl, hr, ?_, ?_, ?_, ?_⟩
  · simp [sendLeaderboard, hr]
  · simp [sendLeaderboard, hr, saveData]
  · simp [sendLeaderboard, hr]
  · intro m _ hm
    simp [sendLeaderboard, hr] at hm
    exact hm

/-- **C4** A cycle on an empty tally announces that nothing was recorded and
returns: the tally stays as it is, nothing is written to the snapshot, the
winner role is not granted to anyone, and the only role effect is the
pre-cycle strip of the existing holders. -/
theorem sendLeaderboard_empty (holders : List String) (msgs : List Msg)
    (sv : SaveState) (now : Nat) (grantOk : Bool) :
    sendLeaderboard ⟨true, true, grantOk⟩ now ⟨[], holders, msgs, sv⟩
      = ⟨[], [], msgs ++ [Msg.noActivity], sv⟩ := by
  simp [sendLeaderboard, rankedEntries, sortDesc]

/-- **C10** If the cycle fails before the reset step, the error is swallowed
inside `sendLeaderboard` and the tally is neither changed nor flushed: a
channel-fetch failure leaves the whole state untouched, and an announcement
send failure leaves the tally, the persistence state and the sent messages
untouched (only the pre-send role strip has happened). -/
theorem sendLeaderboard_failure (w : CycleState) (now : Nat)
    (sendOk grantOk : Bool) :
    sendLeaderboard ⟨false, sendOk, grantOk⟩ now w = w
      ∧ (sendLeaderboard ⟨true, false, grantOk⟩ now w).tally = w.tally
      ∧ (sendLeaderboard ⟨true, false, grantOk⟩ now w).save = w.save
      ∧ (sendLeaderboard ⟨true, false, grantOk⟩ now w).messages
          = w.messages := by
  refine ⟨rfl, ?_⟩
  rcases h : rankedEntries w.tally with _ | ⟨top, tl⟩ <;>
    simp [sendLeaderboard, h]

/-!
## Mute Ledger (`mutedUserRoles`), `src/index.js`

Chat `mute` handler (lines 1042-1110):
```js
if (mutedUserRoles.has(member.id)) return msg.reply("already muted");
let muteRole = msg.guild.roles.cache.find((r) => r.name === "Muted");
if (!muteRole) { try { muteRole = await msg.guild.roles.create(...); ... }
                 catch { return msg.reply("Couldn't create Muted role"); } }
try {
  const userRoles = member.roles.cache
    .filter(role => role.id !== msg.guild.id).map(role => role.id);
  mutedUserRoles.set(member.id, userRoles);
  await member.roles.set([muteRole.id]);
  ...
} catch (error) { mutedUserRoles.delete(member.id); ... }
```

HTTP `POST /api/moderation/mute` (lines 562-611) is the same up to the
failure path: the `roles.set` throw is caught only by the endpoint's outer
`catch`, which returns HTTP 500 **without** deleting the ledger entry.

Chat `unmute` handler (lines 1113-1155) / `POST /api/moderation/unmute`
(lines 613-643): reject if no `Muted` role or no ledger entry; otherwise
restore `storedRoles.filter(roleId => role exists && roleId !== muteRole.id)`
as the member's role set and delete the ledger entry.

State: the guild's role ids, the target member's role-cache ids, and the
ledger.  The `Muted` role is modelled by the fixed id `mutedRoleId`; the
everyone role id is `guild.id`, a field of the state.  `setOk` models
success of `member.roles.set`, `createOk` success of `roles.create`.
-/

/-- Id of the `Muted` role (found by name, or created). -/
def mutedRoleId : String := "Muted"

/-- Guild, member and ledger state for the mute/unmute operations. -/
structure ModState where
  everyoneId : String
  guildRoles : List String
  memberRoles : List String
  ledger : List (String × List String)
  deriving DecidableEq, Repr

/-- The chat `mute` command for user `u`; the `Bool` result is success. -/
def muteCmd (u : String) (setOk createOk : Bool) (s : ModState) :
    Bool × ModState :=
  if containsKey s.ledger u then (false, s)
  else if ¬ mutedRoleId ∈ s.guildRoles ∧ ¬ createOk then (false, s)
  else
    let s0 : ModState :=
      if mutedRoleId ∈ s.guildRoles then s
      else { s with guildRoles := s.guildRoles ++ [mutedRoleId] }
    let userRoles := s0.memberRoles.filter (fun r => r ≠ s0.everyoneId)
    let s1 : ModState := { s0 with ledger := setEntry s0.ledger u userRoles }
    if setOk then (true, { s1 with memberRoles := [mutedRoleId] })
    else (false, { s1 with ledger := eraseKey s1.ledger u })

/-- `POST /api/moderation/mute`: identical to `muteCmd` except that a failing
`roles.set` is caught by the endpoint's outer catch, which does **not** remove
the just-stored ledger entry. -/
def apiMute (u : String) (setOk createOk : Bool) (s : ModState) :
    Bool × ModState :=
  if containsKey s.ledger u then (false, s)
  else if ¬ mutedRoleId ∈ s.guildRoles ∧ ¬ createOk then (false, s)
  else
    let s0 : ModState :=
      if mutedRoleId ∈ s.guildRoles then s
      else { s with guildRoles := s.guildRoles ++ [mutedRoleId] }
    let userRoles := s0.memberRoles.filter (fun r => r ≠ s0.everyoneId)
    let s1 : ModState := { s0 with ledger := setEntry s0.ledger u userRoles }
    if setOk then (true, { s1 with memberRoles := [mutedRoleId] })
    else (false, s1)

/-- The chat `unmute` command for user `u`. -/
def unmuteCmd (u : String) (setOk : Bool) (s : ModState) :
    Bool × ModState :=
  if ¬ mutedRoleId ∈ s.guildRoles then (false, s)
  else if ¬ containsKey s.ledger u then (false, s)
  else
    let storedRoles := (lookupT s.ledger u).getD []
    let validRoles := storedRoles.filter
      (fun r => r ∈ s.guildRoles ∧ r ≠ mutedRoleId)
    if setOk then
      (true, { s with memberRoles := validRoles,
                      ledger := eraseKey s.ledger u })
    else (false, s)

theorem lookupT_eq_none_of_not_contains {β : Type} (t : List (String × β))
    (u : String) (hc : containsKey t u = false) : lookupT t u = none := by
  cases hl : lookupT t u with
  | none => rfl
  | some v =>
    rw [containsKey, hl] at hc
    simp at hc

theorem mutedRoleId_mem_ensure (g : List String) :
    mutedRoleId ∈ (if mutedRoleId ∈ g then g else g ++ [mutedRoleId]) := by
  by_cases h : mutedRoleId ∈ g <;> simp [h]

theorem mem_ensure_of_mem (g : List String) (r : String) (h : r ∈ g) :
    r ∈ (if mutedRoleId ∈ g then g else g ++ [mutedRoleId]) := by
  by_cases hm : mutedRoleId ∈ g <;> simp [hm, h]

/-- On the success path, `muteCmd` captures the member's roles minus the
everyone role into the ledger and replaces the member's roles with the
`Muted` role. -/
theorem muteCmd_success (s : ModState) (u : String) (createOk : Bool)
    (h1 : containsKey s.ledger u = false)
    (h2 : mutedRoleId ∈ s.guildRoles ∨ createOk = true) :
    muteCmd u true createOk s
      = (true,
        { everyoneId := s.everyoneId,
          guildRoles :=
            if mutedRoleId ∈ s.guildRoles then s.guildRoles
            else s.guildRoles ++ [mutedRoleId],
          memberRoles := [mutedRoleId],
          ledger := setEntry s.ledger u
            (s.memberRoles.filter (fun r => r ≠ s.everyoneId)) }) := by
  rw [muteCmd, if_neg (by simp [h1])]
  by_cases hmr : mutedRoleId ∈ s.guildRoles
  · rw [if_neg (by simp [hmr])]
    simp [hmr]
  · rcases h2 with h2 | h2
    · exact absurd h2 hmr
    · rw [if_neg (by simp [h2])]
      simp [hmr]

/-- **C6** A `mute(u)` for a user already in the ledger is rejected with the
state — in particular the stored role snapshot — completely unchanged; and
after a successful `mute(u)` on a member whose roles all exist in the guild,
`unmute(u)` succeeds, restores exactly the captured pre-mute role set minus
any reference to the `Muted` role, and deletes the ledger entry. -/
theorem mute_unmute_spec (s : ModState) (u : String) (setOk createOk : Bool)
    (h : containsKey s.ledger u = true)
    (s' : ModState) (u' : String) (createOk' : Bool)
    (h1 : containsKey s'.ledger u' = false)
    (h2 : ∀ r ∈ s'.memberRoles, r ∈ s'.guildRoles)
    (h3 : mutedRoleId ∈ s'.guildRoles ∨ createOk' = true) :
    muteCmd u setOk createOk s = (false, s)
      ∧ (muteCmd u' true createOk' s').1 = true
      ∧ unmuteCmd u' true (muteCmd u' true createOk' s').2
          = (true,
            { (muteCmd u' true createOk' s').2 with
              memberRoles :=
                (s'.memberRoles.filter (fun r => r ≠ s'.everyoneId)).filter
                  (fun r => r ≠ mutedRoleId),
              ledger := s'.ledger })
      ∧ lookupT
          (unmuteCmd u' true (muteCmd u' true createOk' s').2).2.ledger u'
          = none := by
  have hmc := muteCmd_success s' u' createOk' h1 h3
  have hln : lookupT s'.ledger u' = none :=
    lookupT_eq_none_of_not_contains s'.ledger u' h1
  refine ⟨by simp [muteCmd, h], by rw [hmc], ?_, ?_⟩
  · rw [hmc]
    rw [unmuteCmd,
      if_neg (by simp [mutedRoleId_mem_ensure s'.guildRoles]),
      if_neg (by simp [containsKey, lookupT_setEntry_self]), if_pos rfl]
    have hstored :
        (lookupT
          (setEntry s'.ledger u'
            (s'.memberRoles.filter (fun r => r ≠ s'.everyoneId))) u').getD []
          = s'.memberRoles.filter (fun r => r ≠ s'.everyoneId) := by
      rw [lookupT_setEntry_self]
      rfl
    rw [hstored]
    have hfil :
        (s'.memberRoles.filter (fun r => r ≠ s'.everyoneId)).filter
            (fun r =>
              r ∈ (if mutedRoleId ∈ s'.guildRoles then s'.guildRoles
                else s'.guildRoles ++ [mutedRoleId]) ∧ r ≠ mutedRoleId)
          = (s'.memberRoles.filter (fun r => r ≠ s'.everyoneId)).filter
            (fun r => r ≠ mutedRoleId) := by
      apply List.filter_congr
      intro r hr
      have hrm : r ∈ s'.memberRoles := (List.mem_filter.mp hr).1
      have hrg := mem_ensure_of_mem s'.guildRoles r (h2 r hrm)
      simp [hrg]
    rw [hfil,
      eraseKey_setEntry_of_not_contains s'.ledger u' _ hln]
  · rw [hmc]
    rw [unmuteCmd,
      if_neg (by simp [mutedRoleId_mem_ensure s'.guildRoles]),
      if_neg (by simp [containsKey, lookupT_setEntry_self]), if_pos rfl]
    simp only
    rw [eraseKey_setEntry_of_not_contains s'.ledger u' _ hln]
    exact hln

/-- Witness for `mute_unmute_spec` at a concrete state: the already-muted
rejection on `"u1"`, and the mute/unmute round trip on `"u2"`. -/
theorem mute_unmute_spec_witness :
    (containsKey [("u1", (["r1"] : List String))] "u1" = true
      ∧ containsKey ([] : List (String × List String)) "u2" = false
      ∧ (∀ r ∈ (["g", "r1"] : List String),
          r ∈ (["g", "Muted", "r1"] : List String))
      ∧ (mutedRoleId ∈ (["g", "Muted", "r1"] : List String) ∨ true = true))
    ∧ (muteCmd "u1" true true
          ⟨"g", ["g", "Muted", "r1"], ["g", "r1"], [("u1", ["r1"])]⟩
        = (false, ⟨"g", ["g", "Muted", "r1"], ["g", "r1"], [("u1", ["r1"])]⟩)
      ∧ (muteCmd "u2" true true
          ⟨"g", ["g", "Muted", "r1"], ["g", "r1"], []⟩).1 = true
      ∧ unmuteCmd "u2" true
          (muteCmd "u2" true true
            ⟨"g", ["g", "Muted", "r1"], ["g", "r1"], []⟩).2
        = (true,
          { (muteCmd "u2" true true
              ⟨"g", ["g", "Muted", "r1"], ["g", "r1"], []⟩).2 with
            memberRoles :=
              ((["g", "r1"] : List String).filter (fun r => r ≠ "g")).filter
                (fun r => r ≠ mutedRoleId),
            ledger := [] })
      ∧ lookupT
          (unmuteCmd "u2" true
            (muteCmd "u2" true true
              ⟨"g", ["g", "Muted", "r1"], ["g", "r1"], []⟩).2).2.ledger "u2"
          = none) :=
  ⟨⟨by decide, by decide, by decide, by decide⟩,
    mute_unmute_spec
      ⟨"g", ["g", "Muted", "r1"], ["g", "r1"], [("u1", ["r1"])]⟩
      "u1" true true (by decide)
      ⟨"g", ["g", "Muted", "r1"], ["g", "r1"], []⟩
      "u2" true (by decide) (by decide) (by decide)⟩

/-- Counterexample to **C7** as stated: on the HTTP mute endpoint, a failing
role replacement leaves the just-stored ledger entry in place, so the user is
recorded in the ledger while their roles are unchanged (not actually muted).
-/
theorem apiMute_no_rollback_counterexample :
    (apiMute "u1" false true ⟨"g", ["g", "Muted"], ["g", "r1"], []⟩).1 = false
      ∧ containsKey
          (apiMute "u1" false true
            ⟨"g", ["g", "Muted"], ["g", "r1"], []⟩).2.ledger "u1" = true
      ∧ (apiMute "u1" false true
          ⟨"g", ["g", "Muted"], ["g", "r1"], []⟩).2.memberRoles
        = ["g", "r1"] := by
  refine ⟨?_, ?_, ?_⟩ <;> decide

/-- **C7 (amended)** For the chat `mute` command, a failure of the role
replacement after the pre-mute role set was stored removes the ledger entry
again (ledger and member roles end up unchanged); the HTTP endpoint, by
contrast, leaves the entry stored while the member's roles are unchanged. -/
theorem mute_rollback_spec (s : ModState) (u : String) (createOk : Bool)
    (h1 : containsKey s.ledger u = false)
    (h2 : mutedRoleId ∈ s.guildRoles ∨ createOk = true) :
    (muteCmd u false createOk s).1 = false
      ∧ (muteCmd u false createOk s).2.ledger = s.ledger
      ∧ (muteCmd u false createOk s).2.memberRoles = s.memberRoles
      ∧ (apiMute u false createOk s).1 = false
      ∧ containsKey (apiMute u false createOk s).2.ledger u = true
      ∧ (apiMute u false createOk s).2.memberRoles = s.memberRoles := by
  have hln : lookupT s.ledger u = none :=
    lookupT_eq_none_of_not_contains s.ledger u h1
  by_cases hmr : mutedRoleId ∈ s.guildRoles
  · refine ⟨?_, ?_, ?_, ?_, ?_, ?_⟩ <;>
      simp [muteCmd, apiMute, h1, hmr, hln, containsKey,
        lookupT_setEntry_self, eraseKey_setEntry_of_not_contains s.ledger u _ hln]
  · rcases h2 with h2 | h2
    · exact absurd h2 hmr
    · refine ⟨?_, ?_, ?_, ?_, ?_, ?_⟩ <;>
        simp [muteCmd, apiMute, h1, hmr, h2, hln, containsKey,
          lookupT_setEntry_self,
          eraseKey_setEntry_of_not_contains s.ledger u _ hln]

/-- Witness for `mute_rollback_spec` at a concrete state. -/
theorem mute_rollback_spec_witness :
    (containsKey ([] : List (String × List String)) "u1" = false
      ∧ (mutedRoleId ∈ (["g", "Muted"] : List String) ∨ true = true))
    ∧ ((muteCmd "u1" false true ⟨"g", ["g", "Muted"], ["g", "r1"], []⟩).1
          = false
      ∧ (muteCmd "u1" false true
          ⟨"g", ["g", "Muted"], ["g", "r1"], []⟩).2.ledger = []
      ∧ (muteCmd "u1" false true
          ⟨"g", ["g", "Muted"], ["g", "r1"], []⟩).2.memberRoles = ["g", "r1"]
      ∧ (apiMute "u1" false true ⟨"g", ["g", "Muted"], ["g", "r1"], []⟩).1
          = false
      ∧ containsKey
          (apiMute "u1" false true
            ⟨"g", ["g", "Muted"], ["g", "r1"], []⟩).2.ledger "u1" = true
      ∧ (apiMute "u1" false true
          ⟨"g", ["g", "Muted"], ["g", "r1"], []⟩).2.memberRoles
        = ["g", "r1"]) :=
  ⟨⟨by decide, by decide⟩,
    mute_rollback_spec ⟨"g", ["g", "Muted"], ["g", "r1"], []⟩ "u1" true
      (by decide) (by decide)⟩

/-!
## Cooldown Tracker (`checkCooldown`), `src/index.js` lines 800-814

```js
function checkCooldown(userId, commandName) {
  const key = `${userId}-${commandName}`;
  const now = Date.now();
  if (cooldowns.has(key)) {
    const expirationTime = cooldowns.get(key) + COOLDOWN_TIME;
    if (now < expirationTime) {
      const timeLeft = (expirationTime - now) / 1000;
      return timeLeft;
    }
  }
  cooldowns.set(key, now);
  return false;
}
```

`COOLDOWN_TIME = 3000` ms.  The JS function returns the remaining wait in
seconds (a positive float) or `false`; we return the remaining wait in
milliseconds as `some` and model `false` as `none`.
-/

/-- `checkCooldown(userId, commandName)` at time `now`: the returned value
(`none` = allowed) and the updated cooldown map. -/
def checkCooldown (userId commandName : String) (now : Nat)
    (cooldowns : List (String × Nat)) :
    Option Nat × List (String × Nat) :=
  match lookupT cooldowns (userId ++ "-" ++ commandName) with
  | some stamp =>
      if now < stamp + 3000 then (some (stamp + 3000 - now), cooldowns)
      else (none, setEntry cooldowns (userId ++ "-" ++ commandName) now)
  | none => (none, setEntry cooldowns (userId ++ "-" ++ commandName) now)

/-- **C8** With no prior entry, or a prior entry at least 3 seconds old,
`checkCooldown` allows the call and stamps the current time; otherwise it
returns the positive remaining wait and leaves the stored timestamp (indeed
the whole map) unchanged, so calls during the window do not extend it. -/
theorem checkCooldown_spec (u c : String) (now : Nat)
    (cds : List (String × Nat)) :
    (lookupT cds (u ++ "-" ++ c) = none →
      checkCooldown u c now cds = (none, setEntry cds (u ++ "-" ++ c) now))
      ∧ ∀ stamp, lookupT cds (u ++ "-" ++ c) = some stamp →
        (stamp + 3000 ≤ now →
          checkCooldown u c now cds
            = (none, setEntry cds (u ++ "-" ++ c) now))
        ∧ (now < stamp + 3000 →
          checkCooldown u c now cds = (some (stamp + 3000 - now), cds)
            ∧ 0 < stamp + 3000 - now) := by
  constructor
  · intro h
    rw [checkCooldown, h]
  · intro stamp h
    constructor
    · intro hle
      rw [checkCooldown, h]
      simp [Nat.not_lt.mpr hle]
    · intro hlt
      rw [checkCooldown, h]
      exact ⟨by simp [hlt], by omega⟩

/-- Witness for `checkCooldown_spec`: a first `kick` at t=5 is allowed and
stamped; a second at t=1000 is blocked with 2005 ms left and no restamp. -/
theorem checkCooldown_spec_witness :
    (lookupT ([] : List (String × Nat)) ("u" ++ "-" ++ "kick") = none
      ∧ checkCooldown "u" "kick" 5 []
          = (none, setEntry [] ("u" ++ "-" ++ "kick") 5))
    ∧ (lookupT [("u-kick", 5)] ("u" ++ "-" ++ "kick") = some 5
      ∧ (1000 < 5 + 3000
        ∧ checkCooldown "u" "kick" 1000 [("u-kick", 5)]
            = (some (5 + 3000 - 1000), [("u-kick", 5)])
        ∧ 0 < 5 + 3000 - 1000)) :=
  ⟨⟨by decide, (checkCooldown_spec "u" "kick" 5 []).1 (by decide)⟩,
    ⟨by decide,
      ⟨by decide,
        ((checkCooldown_spec "u" "kick" 1000 [("u-kick", 5)]).2 5
          (by decide)).2 (by decide)⟩⟩⟩

/-!
## `clear` amount validation

Chat handler (`src/index.js` lines 1157-1165):
```js
const amount = parseInt(args[0]);
if (isNaN(amount) || amount < 1 || amount > 100) {
  return msg.reply("Please provide a number between 1 and 100.");
}
await msg.channel.bulkDelete(amount, true);
```
We take the `parseInt` result as input: `none` models NaN (non-numeric
input), `some n` a parsed integer.

HTTP endpoint (`POST /api/moderation/clear`, lines 645-662):
```js
const { channelId, amount } = req.body;
...
if (amount < 1 || amount > 100) { throw new Error(...); }
await channel.bulkDelete(amount, true);
```
There is no `isNaN` test here, and the JSON `amount` can be any value.  A JS
relational comparison whose operand coerces to NaN (a non-numeric string,
`undefined`, ...) is `false`, so such an `amount` passes the validation and
is handed to `bulkDelete`.
-/

/-- A JSON `amount` as seen by the JS `<`/`>` operators: a number, or a value
whose numeric coercion is NaN (a non-numeric string, `undefined`, ...). -/
inductive JsAmount : Type
  | num (n : Int) : JsAmount
  | nan : JsAmount
  deriving DecidableEq, Repr

/-- JS `amount < m`: false when `amount` coerces to NaN. -/
def jsLtInt : JsAmount → Int → Bool
  | .num n, m => decide (n < m)
  | .nan, _ => false

/-- JS `m < amount`: false when `amount` coerces to NaN. -/
def jsGtInt : JsAmount → Int → Bool
  | .num n, m => decide (m < n)
  | .nan, _ => false

/-- Chat `clear` validation on the `parseInt` result: `true` means the
command proceeds to `bulkDelete`. -/
def clearCmdValid (amount : Option Int) : Bool :=
  match amount with
  | none => false
  | some n => if n < 1 ∨ 100 < n then false else true

/-- `POST /api/moderation/clear` validation: `true` means the endpoint throws
("Amount must be between 1 and 100") before `bulkDelete`. -/
def apiClearRejects (amount : JsAmount) : Bool :=
  jsLtInt amount 1 || jsGtInt amount 100

/-- Counterexample to **C9** as stated: the HTTP clear endpoint does not
reject a non-numeric `amount` — both NaN comparisons are false — so the
request proceeds to the `bulkDelete` call instead of being rejected before
any deletion is attempted. -/
theorem apiClear_nonNumeric_counterexample :
    apiClearRejects JsAmount.nan = false := by decide

/-- **C9 (amended)** The chat `clear` command rejects 0, 101 and non-numeric
input before any deletion and accepts 1 and 100; the HTTP endpoint rejects 0
and 101 and accepts 1 and 100, but does not reject non-numeric input (NaN
comparisons are false), passing it through to the bulk-delete call. -/
theorem clear_validation_spec :
    clearCmdValid none = false
      ∧ clearCmdValid (some 0) = false
      ∧ clearCmdValid (some 101) = false
      ∧ clearCmdValid (some 1) = true
      ∧ clearCmdValid (some 100) = true
      ∧ apiClearRejects (JsAmount.num 0) = true
      ∧ apiClearRejects (JsAmount.num 101) = true
      ∧ apiClearRejects (JsAmount.num 1) = false
      ∧ apiClearRejects (JsAmount.num 100) = false
      ∧ apiClearRejects JsAmount.nan = false := by
  refine ⟨?_, ?_, ?_, ?_, ?_, ?_, ?_, ?_, ?_, ?_⟩ <;> decide
